import Mathlib

/-!
Verification of the h2h-galleryinfo-parser repository.

The Python module `galleryinfo_parser.py` is shallowly embedded here:

* `parse_gid` extracts the numeric gallery id from a folder path;
* `scanLines` is the header/comment line loop of `parse_galleryinfo`;
* `parse_galleryinfo` assembles the record, with the filesystem reads
  (file content, directory listing, modification time) passed in as
  explicit arguments;
* `pagesAccess` is the lazily memoized `pages` property, with the
  directory listing at access time passed in explicitly.

Machine-level behaviour of CPython that the code relies on is modelled
faithfully: `pyInt` is `int(str)`, `pyStrip` is `str.strip()`,
`strptime` is `datetime.strptime(value, "%Y-%m-%d %H:%M")` (the TimeRE
regular expression of CPython followed by the datetime range check),
and an unassigned local at record construction (Python's
UnboundLocalError) is the error `PyErr.missingFieldError`.
-/

namespace GalleryInfo

/-- The whitespace characters `str.strip()` and `int(str)` remove
(the ASCII ones, which are the only ones this data contains). -/
def isPySpace (c : Char) : Bool :=
  c = ' ' || c = '\t' || c = '\n' || c = '\r' || c = '\x0b' || c = '\x0c'

/-- Remove the characters satisfying `p` from both ends of a list. -/
def stripList (p : Char → Bool) (cs : List Char) : List Char :=
  ((cs.dropWhile p).reverse.dropWhile p).reverse

/-- Python `str.strip()`. -/
def pyStrip (s : String) : String := String.mk (stripList isPySpace s.data)

/-- Python `str.strip("\n")`. -/
def pyStripNL (s : String) : String :=
  String.mk (stripList (fun c => c = '\n') s.data)

/-- Python `str.split(sep)` for a one-character separator: returns `[""]`
on the empty string and keeps empty pieces. -/
def splitChar (sep : Char) : List Char → List (List Char)
  | [] => [[]]
  | c :: rest =>
    match splitChar sep rest with
    | [] => [[]]
    | t :: ts => if c = sep then [] :: t :: ts else (c :: t) :: ts

/-- Everything after the last occurrence of `c` (the whole list when `c`
is absent): `s.split(c)[-1]`, and also `os.path.basename` for `c = '/'`. -/
def afterLastChar (c : Char) (cs : List Char) : List Char :=
  (cs.reverse.takeWhile (fun a => a != c)).reverse

/-- `os.path.basename` on a POSIX path. -/
def basename (p : String) : String := String.mk (afterLastChar '/' p.data)

/-- Value of a decimal digit character. -/
def digitVal (c : Char) : Nat := c.toNat - 48

/-- Digit run of `int(str)` after its first digit: each further character
is a digit or a single underscore followed by a digit. -/
def goDigits : List Char → Nat → Option Nat
  | [], a => some a
  | c :: rest, a =>
    if c = '_' then
      match rest with
      | [] => none
      | c2 :: rest2 =>
        if c2.isDigit then goDigits rest2 (10 * a + digitVal c2) else none
    else if c.isDigit then goDigits rest (10 * a + digitVal c)
    else none

/-- The digit part of `int(str)`: a nonempty digit run, with single
underscores allowed between digits. -/
def parseUDigits : List Char → Option Nat
  | [] => none
  | c :: rest => if c.isDigit then goDigits rest (digitVal c) else none

/-- Python `int(str)`: surrounding whitespace, an optional sign, then
digits; `none` models the `ValueError` it raises otherwise. -/
def pyInt (s : String) : Option Int :=
  match stripList isPySpace s.data with
  | [] => none
  | c :: rest =>
    if c = '+' then (parseUDigits rest).map (fun n => (n : Int))
    else if c = '-' then (parseUDigits rest).map (fun n => -(n : Int))
    else (parseUDigits (c :: rest)).map (fun n => (n : Int))

/-- The errors `parse_gid` and `parse_galleryinfo` can raise, named as in
the specification's taxonomy: `invalidIdentifier` is the ValueError of
`int()` in `parse_gid`, `timestampFormatError` the ValueError of
`datetime.strptime`, and `missingFieldError` the UnboundLocalError when
the loop never assigned a field used at record construction. -/
inductive PyErr where
  | invalidIdentifier
  | timestampFormatError
  | missingFieldError
deriving DecidableEq, Repr

deriving instance DecidableEq for Except

/-- A `datetime.datetime` as produced by `strptime` with format
`"%Y-%m-%d %H:%M"` (seconds and finer are always zero). -/
structure PyDateTime where
  year : Nat
  month : Nat
  day : Nat
  hour : Nat
  minute : Nat
deriving DecidableEq, Repr

/-- Gregorian leap year (as in Python's datetime). -/
def isLeap (y : Nat) : Bool :=
  y % 4 = 0 && (y % 100 != 0 || y % 400 = 0)

/-- Days in a month (as in Python's datetime). -/
def daysInMonth (y m : Nat) : Nat :=
  if m = 2 then (if isLeap y then 29 else 28)
  else if m = 4 || m = 6 || m = 9 || m = 11 then 30
  else 31

/-- CPython TimeRE `%Y`: exactly four digits. -/
def matchYear : List Char → Option (Nat × List Char)
  | a :: b :: c :: d :: rest =>
    if a.isDigit && b.isDigit && c.isDigit && d.isDigit then
      some (((digitVal a * 10 + digitVal b) * 10 + digitVal c) * 10 + digitVal d, rest)
    else none
  | _ => none

/-- CPython TimeRE `%m`: `1[0-2]|0[1-9]|[1-9]`, alternatives in order. -/
def matchMonth : List Char → Option (Nat × List Char)
  | a :: b :: rest =>
    if a = '1' && ('0' ≤ b && b ≤ '2') then some (10 + digitVal b, rest)
    else if a = '0' && ('1' ≤ b && b ≤ '9') then some (digitVal b, rest)
    else if '1' ≤ a && a ≤ '9' then some (digitVal a, b :: rest)
    else none
  | [a] => if '1' ≤ a && a ≤ '9' then some (digitVal a, []) else none
  | [] => none

/-- CPython TimeRE `%d`: `3[01]|[12]\d|0[1-9]|[1-9]`. -/
def matchDay : List Char → Option (Nat × List Char)
  | a :: b :: rest =>
    if a = '3' && (b = '0' || b = '1') then some (30 + digitVal b, rest)
    else if (a = '1' || a = '2') && b.isDigit then
      some (digitVal a * 10 + digitVal b, rest)
    else if a = '0' && ('1' ≤ b && b ≤ '9') then some (digitVal b, rest)
    else if '1' ≤ a && a ≤ '9' then some (digitVal a, b :: rest)
    else none
  | [a] => if '1' ≤ a && a ≤ '9' then some (digitVal a, []) else none
  | [] => none

/-- CPython TimeRE `%H`: `2[0-3]|[0-1]\d|\d`. -/
def matchHour : List Char → Option (Nat × List Char)
  | a :: b :: rest =>
    if a = '2' && ('0' ≤ b && b ≤ '3') then some (20 + digitVal b, rest)
    else if (a = '0' || a = '1') && b.isDigit then
      some (digitVal a * 10 + digitVal b, rest)
    else if a.isDigit then some (digitVal a, b :: rest)
    else none
  | [a] => if a.isDigit then some (digitVal a, []) else none
  | [] => none

/-- CPython TimeRE `%M`: `[0-5]\d|\d`. -/
def matchMinute : List Char → Option (Nat × List Char)
  | a :: b :: rest =>
    if ('0' ≤ a && a ≤ '5') && b.isDigit then
      some (digitVal a * 10 + digitVal b, rest)
    else if a.isDigit then some (digitVal a, b :: rest)
    else none
  | [a] => if a.isDigit then some (digitVal a, []) else none
  | [] => none

/-- A literal character of the format string. -/
def matchLit (c : Char) : List Char → Option (List Char)
  | a :: rest => if a = c then some rest else none
  | [] => none

/-- Whitespace in the format string: CPython's TimeRE turns it into
`\s+`, one or more whitespace characters (greedy; nothing after it can
match whitespace, so greediness is safe). -/
def matchSpaces : List Char → Option (List Char)
  | a :: rest =>
    if isPySpace a then some (rest.dropWhile isPySpace) else none
  | [] => none

/-- `datetime.datetime.strptime(s, "%Y-%m-%d %H:%M")`: the TimeRE match
(which must cover the whole string) followed by the datetime
constructor's range check; `none` models the raised ValueError. -/
def strptime (s : String) : Option PyDateTime := do
  let (y, r1) ← matchYear s.data
  let r2 ← matchLit '-' r1
  let (m, r3) ← matchMonth r2
  let r4 ← matchLit '-' r3
  let (d, r5) ← matchDay r4
  let r6 ← matchSpaces r5
  let (h, r7) ← matchHour r6
  let r8 ← matchLit ':' r7
  let (mi, r9) ← matchMinute r8
  if r9 = [] && 1 ≤ y && d ≤ daysInMonth y m then
    some ⟨y, m, d, h, mi⟩
  else none

/-- A directory entry as `os.listdir` + `os.path.isfile` see it. -/
structure DirEntry where
  name : String
  isFile : Bool
deriving DecidableEq, Repr

/-- `count_files_in_directory`: the number of regular files directly in
the folder. -/
def count_files_in_directory (listing : List DirEntry) : Nat :=
  (listing.filter (fun e => e.isFile)).length

/-- The record `parse_galleryinfo` builds. `pagesSlot` is the `_pages`
slot, initialized to `-1` by the constructor and mutated by the first
access of the `pages` property. -/
structure GalleryInfoParser where
  gallery_folder : String
  gallery_name : String
  gid : Int
  files_path : List String
  modified_time : Int
  title : String
  upload_time : PyDateTime
  galleries_comments : String
  upload_account : String
  download_time : PyDateTime
  tags : List (String × String)
  pagesSlot : Int
deriving DecidableEq, Repr

/-- `GalleryInfoParser.__init__`: stores the eleven arguments and sets
`_pages` to the sentinel `-1`. -/
def mkGalleryInfoParser (gallery_folder gallery_name : String) (gid : Int)
    (files_path : List String) (modified_time : Int) (title : String)
    (upload_time : PyDateTime) (galleries_comments upload_account : String)
    (download_time : PyDateTime) (tags : List (String × String)) :
    GalleryInfoParser :=
  ⟨gallery_folder, gallery_name, gid, files_path, modified_time, title,
    upload_time, galleries_comments, upload_account, download_time, tags, -1⟩

/-- The `pages` property: if `_pages` is still `-1` it counts the regular
files in the folder as listed at access time, subtracts 1 and stores the
result; otherwise it returns the stored value. Returns the value and the
record after the access. -/
def pagesAccess (listing : List DirEntry) (r : GalleryInfoParser) :
    Int × GalleryInfoParser :=
  if r.pagesSlot = -1 then
    ((count_files_in_directory listing : Int) - 1,
      { r with pagesSlot := (count_files_in_directory listing : Int) - 1 })
  else (r.pagesSlot, r)

/-- The text `int()` is applied to in `parse_gid`: when the basename
contains both brackets, `gallery_name.split("[")[-1].replace("]", "")`
(after the last `[`, with every `]` removed); otherwise the whole
basename. -/
def gidText (gallery_name : String) : String :=
  if gallery_name.data.contains '[' && gallery_name.data.contains ']' then
    String.mk ((afterLastChar '[' gallery_name.data).filter (fun c => c != ']'))
  else gallery_name

/-- `parse_gid`: the gallery id from the folder path's basename. -/
def parse_gid (gallery_folder : String) : Except PyErr Int :=
  match pyInt (gidText (basename gallery_folder)) with
  | some n => .ok n
  | none => .error .invalidIdentifier

/-- One token of the comma-separated Tags value (the body of the
`for tag in value.split(",")` loop). -/
def tagOfToken (tag : String) : String × String :=
  if tag.data.contains ':' then
    if pyStrip (String.mk (tag.data.takeWhile (fun c => c != ':'))) ≠ "" then
      (pyStrip (String.mk (tag.data.takeWhile (fun c => c != ':'))),
        pyStrip (String.mk ((tag.data.dropWhile (fun c => c != ':')).drop 1)))
    else
      ("untagged",
        pyStrip (String.mk ((tag.data.dropWhile (fun c => c != ':')).drop 1)))
  else ("untagged", pyStrip tag)

/-- The `case "Tags"` sub-parser: split the value on commas and turn each
token into a (category, value) pair. -/
def parseTags (value : String) : List (String × String) :=
  ((splitChar ',' value.data).map String.mk).map tagOfToken

/-- The substring whose presence switches the loop into comment mode. -/
def commentsMarker : String := "Uploader's Comments"

/-- The fixed line that terminates the comment block. -/
def sentinelLine : String :=
  "Downloaded from E-Hentai Galleries by the Hentai@Home Downloader <3"

/-- `pat` is a prefix of `s` (character lists). -/
def startsWithList : List Char → List Char → Bool
  | _, [] => true
  | [], _ :: _ => false
  | a :: as, b :: bs => a = b && startsWithList as bs

/-- `pat` occurs as a contiguous substring of `s` (character lists). -/
def hasInfixList : List Char → List Char → Bool
  | [], pat => pat.isEmpty
  | s@(_ :: rest), pat => startsWithList s pat || hasInfixList rest pat

/-- Python `sub in line`. -/
def pyContains (line sub : String) : Bool := hasInfixList line.data sub.data

/-- `line.split(":", 1)[0].strip()`. -/
def keyOf (line : String) : String :=
  pyStrip (String.mk (line.data.takeWhile (fun c => c != ':')))

/-- `line.split(":", 1)[1].strip()`. -/
def valOf (line : String) : String :=
  pyStrip (String.mk ((line.data.dropWhile (fun c => c != ':')).drop 1))

/-- The loop's mutable state: the `comments` flag, the comment buffer and
the five field variables, `none` while still unassigned. -/
structure ScanState where
  comments : Bool
  comment_lines : List String
  tags : Option (List (String × String))
  title : Option String
  upload_time : Option PyDateTime
  upload_account : Option String
  download_time : Option PyDateTime
deriving DecidableEq, Repr

/-- The state before the loop's first iteration. -/
def initScan : ScanState := ⟨false, [], none, none, none, none, none⟩

/-- The `for line in lines` loop of `parse_galleryinfo`. Python's
`match key` is a chain of string comparisons; a failing `strptime`
raises, which aborts the loop (`.error`); the sentinel line executes
`break` (`.ok` with the remaining lines unexamined). -/
def scanLines : List String → ScanState → Except PyErr ScanState
  | [], st => .ok st
  | line :: rest, st =>
    if pyContains line commentsMarker then
      scanLines rest { st with comments := true }
    else if st.comments then
      if line = sentinelLine then .ok st
      else
        scanLines rest
          { st with comment_lines := st.comment_lines ++ [pyStrip line] }
    else if line.data.contains ':' then
      if keyOf line = "Tags" then
        scanLines rest { st with tags := some (parseTags (valOf line)) }
      else if keyOf line = "Title" then
        scanLines rest { st with title := some (valOf line) }
      else if keyOf line = "Upload Time" then
        match strptime (valOf line) with
        | some dt => scanLines rest { st with upload_time := some dt }
        | none => .error .timestampFormatError
      else if keyOf line = "Uploaded By" then
        scanLines rest { st with upload_account := some (valOf line) }
      else if keyOf line = "Downloaded" then
        match strptime (valOf line) with
        | some dt => scanLines rest { st with download_time := some dt }
        | none => .error .timestampFormatError
      else scanLines rest st
    else scanLines rest st

/-- `"\n".join(lines)`. -/
def joinNL (ls : List String) : String := String.intercalate "\n" ls

/-- `file.read().strip("\n").split("\n")`. -/
def fileLines (content : String) : List String :=
  (splitChar '\n' (stripList (fun c => c = '\n') content.data)).map String.mk

/-- `parse_galleryinfo`, with the filesystem reads passed in: `content`
is the text of `galleryinfo.txt`, `listing` the folder's directory
entries, `mtime` the sidecar's modification time. The final record
construction reads the loop's variables; one still unassigned raises
(Python's UnboundLocalError), modelled as `.error .missingFieldError`. -/
def parse_galleryinfo (gallery_folder content : String)
    (listing : List DirEntry) (mtime : Int) :
    Except PyErr GalleryInfoParser :=
  match parse_gid gallery_folder with
  | .error e => .error e
  | .ok gid =>
    match scanLines (fileLines content) initScan with
    | .error e => .error e
    | .ok st =>
      match st.title, st.upload_time, st.upload_account, st.download_time,
          st.tags with
      | some title, some upload_time, some upload_account,
          some download_time, some tags =>
        .ok (mkGalleryInfoParser gallery_folder (basename gallery_folder) gid
          (listing.map (fun e => e.name)) mtime title upload_time
          (pyStripNL (joinNL st.comment_lines)) upload_account download_time
          tags)
      | _, _, _, _, _ => .error .missingFieldError

/-! ### List helpers -/

theorem contains_iff_mem (cs : List Char) (c : Char) :
    cs.contains c = true ↔ c ∈ cs := List.elem_iff

theorem dropWhile_append_cons {p : Char → Bool} (l1 : List Char) {c : Char}
    (t : List Char) (h : p c = false) :
    List.dropWhile p (l1 ++ c :: t) = List.dropWhile p l1 ++ c :: t := by
  induction l1 with
  | nil => simp [List.dropWhile_cons, h]
  | cons a l ih =>
    simp only [List.cons_append, List.dropWhile_cons]
    split <;> simp [ih]

theorem takeWhile_append_cons {p : Char → Bool} (l1 : List Char) {c : Char}
    (t : List Char) (h : p c = false) :
    List.takeWhile p (l1 ++ c :: t) = List.takeWhile p l1 := by
  induction l1 with
  | nil => simp [List.takeWhile_cons, h]
  | cons a l ih =>
    simp only [List.cons_append, List.takeWhile_cons]
    split <;> simp [ih]

theorem takeWhile_append_all {p : Char → Bool} {l1 : List Char}
    (l2 : List Char) (h : ∀ a ∈ l1, p a = true) :
    List.takeWhile p (l1 ++ l2) = l1 ++ List.takeWhile p l2 := by
  induction l1 with
  | nil => simp
  | cons a l ih =>
    have ha : p a = true := h a (by simp)
    simp only [List.cons_append, List.takeWhile_cons, ha, if_true]
    simp [ih fun x hx => h x (by simp [hx])]

theorem dropWhile_append_all {p : Char → Bool} {l1 : List Char}
    (l2 : List Char) (h : ∀ a ∈ l1, p a = true) :
    List.dropWhile p (l1 ++ l2) = List.dropWhile p l2 := by
  induction l1 with
  | nil => simp
  | cons a l ih =>
    have ha : p a = true := h a (by simp)
    simp only [List.cons_append, List.dropWhile_cons, ha, if_true]
    exact ih fun x hx => h x (by simp [hx])

theorem takeWhile_eq_self_of_all {p : Char → Bool} {l : List Char}
    (h : ∀ a ∈ l, p a = true) : List.takeWhile p l = l := by
  induction l with
  | nil => simp
  | cons a t ih =>
    simp [List.takeWhile_cons, h a (by simp), ih fun x hx => h x (by simp [hx])]

theorem exists_split_first {c : Char} {cs : List Char} (h : c ∈ cs) :
    ∃ a b, cs = a ++ c :: b ∧ c ∉ a := by
  induction cs with
  | nil => cases h
  | cons x t ih =>
    by_cases hx : x = c
    · subst hx
      exact ⟨[], t, rfl, by simp⟩
    · have hct : c ∈ t := by
        cases h with
        | head => exact absurd rfl hx
        | tail _ h2 => exact h2
      rcases ih hct with ⟨a, b, rfl, hc⟩
      refine ⟨x :: a, b, rfl, ?_⟩
      intro hm
      cases hm with
      | head => exact hx rfl
      | tail _ h2 => exact hc h2

/-! ### Strip helpers -/

theorem stripList_eq (p : Char → Bool) (cs : List Char) :
    stripList p cs = List.rdropWhile p (List.dropWhile p cs) := rfl

theorem stripList_cons_of_pos {p : Char → Bool} {c : Char} (cs : List Char)
    (h : p c = true) : stripList p (c :: cs) = stripList p cs := by
  simp [stripList, List.dropWhile_cons, h]

theorem stripList_eq_self_of_all {p : Char → Bool} {cs : List Char}
    (h : ∀ a ∈ cs, p a = false) : stripList p cs = cs := by
  have h1 : List.dropWhile p cs = cs := by
    cases cs with
    | nil => rfl
    | cons a t => simp [List.dropWhile_cons, h a (by simp)]
  rw [stripList_eq, h1, List.rdropWhile_eq_self_iff]
  intro hl
  simp [h _ (List.getLast_mem hl)]

theorem rdropWhile_cons (p : Char → Bool) (c : Char) (t : List Char) :
    List.rdropWhile p (c :: t) =
      if (List.rdropWhile p t).isEmpty then (if p c then [] else [c])
      else c :: List.rdropWhile p t := by
  rw [List.rdropWhile, List.reverse_cons, List.dropWhile_append]
  have he : (List.dropWhile p t.reverse).isEmpty = (List.rdropWhile p t).isEmpty := by
    rw [List.rdropWhile]
    cases List.dropWhile p t.reverse <;> simp
  rw [he]
  split
  · simp [List.dropWhile_cons]
    split <;> simp
  · simp [List.rdropWhile]

theorem dropWhile_rdropWhile (p : Char → Bool) (l : List Char) :
    List.dropWhile p (List.rdropWhile p l) =
      List.rdropWhile p (List.dropWhile p l) := by
  induction l with
  | nil => rfl
  | cons c t ih =>
    rw [rdropWhile_cons, List.dropWhile_cons]
    by_cases hc : p c
    · simp only [hc, if_true]
      split
      · next hemp =>
        have ht : List.rdropWhile p t = [] := by
          cases h' : List.rdropWhile p t <;> simp_all
        have : List.rdropWhile p (List.dropWhile p t) = [] := by
          rw [← ih, ht]
          rfl
        simp [this]
      · simp [List.dropWhile_cons, hc, ih]
    · simp only [hc, if_false, Bool.false_eq_true]
      split
      · next hemp =>
        rw [rdropWhile_cons]
        simp [hemp, hc]
      · next hemp =>
        rw [rdropWhile_cons, if_neg hemp]
        simp [List.dropWhile_cons, hc]

theorem stripList_dropWhile (p : Char → Bool) (cs : List Char) :
    stripList p (List.dropWhile p cs) = stripList p cs := by
  rw [stripList_eq, stripList_eq, List.dropWhile_idempotent]

theorem stripList_rdropWhile (p : Char → Bool) (cs : List Char) :
    stripList p (List.rdropWhile p cs) = stripList p cs := by
  rw [stripList_eq, stripList_eq, dropWhile_rdropWhile,
    List.rdropWhile_idempotent]

theorem rdropWhile_append_cons {p : Char → Bool} (l : List Char) {c : Char}
    (b : List Char) (h : p c = false) :
    List.rdropWhile p (l ++ c :: b) = l ++ c :: List.rdropWhile p b := by
  rw [List.rdropWhile, List.reverse_append, List.reverse_cons,
    List.append_assoc]
  simp only [List.singleton_append]
  rw [dropWhile_append_cons _ _ h]
  simp [List.rdropWhile, List.reverse_append]

theorem stripList_append_cons {p : Char → Bool} (a : List Char) {c : Char}
    (b : List Char) (h : p c = false) :
    stripList p (a ++ c :: b) =
      List.dropWhile p a ++ c :: List.rdropWhile p b := by
  rw [stripList_eq, dropWhile_append_cons _ _ h, rdropWhile_append_cons _ _ h]

/-! ### The comment state of the loop -/

/-- What the loop, already in comment mode, appends to the buffer: each
line trimmed and appended, except that a line containing the comment
marker is discarded (it only re-sets the flag) and the sentinel line
stops the loop. -/
def collectComments : List String → List String
  | [] => []
  | line :: rest =>
    if pyContains line commentsMarker then collectComments rest
    else if line = sentinelLine then []
    else pyStrip line :: collectComments rest

theorem scanLines_comment_state (lines : List String) :
    ∀ st : ScanState, st.comments = true →
      scanLines lines st =
        .ok { st with
          comment_lines := st.comment_lines ++ collectComments lines } := by
  induction lines with
  | nil =>
    intro st h
    simp [scanLines, collectComments]
  | cons line rest ih =>
    intro st h
    simp only [scanLines, collectComments]
    by_cases hm : pyContains line commentsMarker = true
    · simp only [hm, if_true]
      have hst : { st with comments := true } = st := by
        cases st
        simp_all
      rw [hst, ih st h]
    · simp only [hm, if_false, Bool.false_eq_true, h, if_true]
      by_cases hs : line = sentinelLine
      · simp only [hs, if_true]
        cases st
        simp_all
      · simp only [hs, if_false]
        rw [ih _ rfl]
        simp

/-! ### Field assignments of the header state -/

/-- The key/value split a line receives when it has a colon. -/
def lineKV (line : String) : Option (String × String) :=
  if line.data.contains ':' then some (keyOf line, valOf line) else none

/-- The lines the loop processes in header state when started there: the
prefix before the first line containing the comment marker. -/
def headerPrefixLines (lines : List String) : List String :=
  lines.takeWhile (fun l => !(pyContains l commentsMarker))

/-- The sequence of values assigned to the field with label `k` during a
scan of `lines` started in header state: the interpreted value of every
pre-marker colon line whose stripped key is `k`. -/
def assignsOf {α : Type} (k : String) (interp : String → Option α)
    (lines : List String) : List α :=
  (headerPrefixLines lines).filterMap fun l =>
    match lineKV l with
    | some kv => if kv.1 = k then interp kv.2 else none
    | none => none

/-- The last element of `xs` when there is one, else the default `d`. -/
def lastOr {α : Type} : List α → Option α → Option α
  | [], d => d
  | x :: xs, _ => lastOr xs (some x)

theorem lastOr_cons {α : Type} (x : α) (xs : List α) (d : Option α) :
    lastOr (x :: xs) d = lastOr xs (some x) := rfl

theorem lastOr_eq_getLast? {α : Type} :
    ∀ (xs : List α) (d : Option α),
      lastOr xs d = match xs.getLast? with | some x => some x | none => d
  | [], _ => rfl
  | [_], _ => rfl
  | x :: y :: ys, d => by
    rw [show lastOr (x :: y :: ys) d = lastOr (y :: ys) (some x) from rfl,
      lastOr_eq_getLast? (y :: ys) (some x), List.getLast?_cons_cons]
    cases hz : (y :: ys).getLast? with
    | some z => rfl
    | none => exact absurd (List.getLast?_eq_none_iff.mp hz) (by simp)

theorem lastOr_none {α : Type} (xs : List α) :
    lastOr xs none = xs.getLast? := by
  rw [lastOr_eq_getLast?]
  cases xs.getLast? <;> rfl


/-- A successful scan started in header state leaves in each field
variable the value of the last pre-marker line labeled with its key, or
the initial value when no such line exists. -/
theorem scanLines_fields (lines : List String) :
    ∀ st st' : ScanState, st.comments = false →
      scanLines lines st = .ok st' →
      st'.title = lastOr (assignsOf "Title" some lines) st.title ∧
      st'.upload_account =
        lastOr (assignsOf "Uploaded By" some lines) st.upload_account ∧
      st'.tags =
        lastOr (assignsOf "Tags" (fun v => some (parseTags v)) lines) st.tags ∧
      st'.upload_time =
        lastOr (assignsOf "Upload Time" strptime lines) st.upload_time ∧
      st'.download_time =
        lastOr (assignsOf "Downloaded" strptime lines) st.download_time := by
  induction lines with
  | nil =>
    intro st st' hc hscan
    simp only [scanLines] at hscan
    injection hscan with h
    subst h
    simp [assignsOf, headerPrefixLines, lastOr]
  | cons line rest ih =>
    intro st st' hc hscan
    simp only [scanLines] at hscan
    by_cases hm : pyContains line commentsMarker = true
    · simp only [hm, if_true] at hscan
      rw [scanLines_comment_state rest _ rfl] at hscan
      injection hscan with h
      subst h
      simp [assignsOf, headerPrefixLines, hm, lastOr]
    · simp only [hm, if_false, Bool.false_eq_true, hc, if_true] at hscan
      have hpre : headerPrefixLines (line :: rest) =
          line :: headerPrefixLines rest := by
        simp [headerPrefixLines, List.takeWhile_cons, hm]
      by_cases hcol : line.data.contains ':' = true
      · simp only [hcol, if_true] at hscan
        by_cases h1 : keyOf line = "Tags"
        · simp only [h1, if_true] at hscan
          have := ih _ st' (by simp) hscan
          simp only [assignsOf, hpre, List.filterMap_cons, lineKV, hcol,
            if_true, h1] at this ⊢
          simp only [lastOr_cons]
          simpa using this
        · simp only [h1, if_false] at hscan
          by_cases h2 : keyOf line = "Title"
          · simp only [h2, if_true] at hscan
            have := ih _ st' (by simp) hscan
            simp only [assignsOf, hpre, List.filterMap_cons, lineKV, hcol,
              if_true, h2] at this ⊢
            simp only [lastOr_cons]
            simpa using this
          · simp only [h2, if_false] at hscan
            by_cases h3 : keyOf line = "Upload Time"
            · simp only [h3, if_true] at hscan
              cases hdt : strptime (valOf line) with
              | none => rw [hdt] at hscan; cases hscan
              | some dt =>
                rw [hdt] at hscan
                have := ih _ st' (by simp) hscan
                simp only [assignsOf, hpre, List.filterMap_cons, lineKV, hcol,
                  if_true, h3, hdt] at this ⊢
                simp only [lastOr_cons]
                simpa using this
            · simp only [h3, if_false] at hscan
              by_cases h4 : keyOf line = "Uploaded By"
              · simp only [h4, if_true] at hscan
                have := ih _ st' (by simp) hscan
                simp only [assignsOf, hpre, List.filterMap_cons, lineKV, hcol,
                  if_true, h4] at this ⊢
                simp only [lastOr_cons]
                simpa using this
              · simp only [h4, if_false] at hscan
                by_cases h5 : keyOf line = "Downloaded"
                · simp only [h5, if_true] at hscan
                  cases hdt : strptime (valOf line) with
                  | none => rw [hdt] at hscan; cases hscan
                  | some dt =>
                    rw [hdt] at hscan
                    have := ih _ st' (by simp) hscan
                    simp only [assignsOf, hpre, List.filterMap_cons, lineKV,
                      hcol, if_true, h5, hdt] at this ⊢
                    simp only [lastOr_cons]
                    simpa using this
                · simp only [h5, if_false] at hscan
                  have := ih _ st' hc hscan
                  simp only [assignsOf, hpre, List.filterMap_cons, lineKV,
                    hcol, if_true, h1, h2, h3, h4, h5] at this ⊢
                  simpa using this
      · simp only [hcol, if_false, Bool.false_eq_true] at hscan
        have := ih _ st' hc hscan
        simp only [assignsOf, hpre, List.filterMap_cons, lineKV, hcol,
          if_false, Bool.false_eq_true] at this ⊢
        simpa using this

/-! ### Single header lines -/

theorem valOf_label_space {v : String} (label : String) (hv : pyStrip v = v)
    (hval : valOf label = String.mk (stripList isPySpace (' ' :: v.data))) :
    valOf label = v := by
  rw [hval, stripList_cons_of_pos _ (by decide)]
  exact hv

theorem scan_step_title (v : String) (rest : List String) (st : ScanState)
    (hc : st.comments = false)
    (hm : pyContains ("Title: " ++ v) commentsMarker = false)
    (hv : pyStrip v = v) :
    scanLines (("Title: " ++ v) :: rest) st =
      scanLines rest { st with title := some v } := by
  have hval : valOf ("Title: " ++ v) = v := valOf_label_space _ hv rfl
  simp only [scanLines, hm, Bool.false_eq_true, if_false, hc,
    show ("Title: " ++ v).data.contains ':' = true from rfl, if_true,
    show keyOf ("Title: " ++ v) = "Title" from rfl]
  rw [if_neg (by decide), hval]

theorem scan_step_tags (v : String) (rest : List String) (st : ScanState)
    (hc : st.comments = false)
    (hm : pyContains ("Tags: " ++ v) commentsMarker = false)
    (hv : pyStrip v = v) :
    scanLines (("Tags: " ++ v) :: rest) st =
      scanLines rest { st with tags := some (parseTags v) } := by
  have hval : valOf ("Tags: " ++ v) = v := valOf_label_space _ hv rfl
  simp only [scanLines, hm, Bool.false_eq_true, if_false, hc,
    show ("Tags: " ++ v).data.contains ':' = true from rfl, if_true,
    show keyOf ("Tags: " ++ v) = "Tags" from rfl]
  rw [hval]

theorem scan_step_uploaded_by (v : String) (rest : List String) (st : ScanState)
    (hc : st.comments = false)
    (hm : pyContains ("Uploaded By: " ++ v) commentsMarker = false)
    (hv : pyStrip v = v) :
    scanLines (("Uploaded By: " ++ v) :: rest) st =
      scanLines rest { st with upload_account := some v } := by
  have hval : valOf ("Uploaded By: " ++ v) = v := valOf_label_space _ hv rfl
  simp only [scanLines, hm, Bool.false_eq_true, if_false, hc,
    show ("Uploaded By: " ++ v).data.contains ':' = true from rfl, if_true,
    show keyOf ("Uploaded By: " ++ v) = "Uploaded By" from rfl]
  rw [if_neg (by decide), if_neg (by decide), if_neg (by decide), hval]

theorem scan_step_upload_time (v : String) (rest : List String) (st : ScanState)
    (hc : st.comments = false)
    (hm : pyContains ("Upload Time: " ++ v) commentsMarker = false)
    (hv : pyStrip v = v) :
    scanLines (("Upload Time: " ++ v) :: rest) st =
      match strptime v with
      | some dt => scanLines rest { st with upload_time := some dt }
      | none => .error .timestampFormatError := by
  have hval : valOf ("Upload Time: " ++ v) = v := valOf_label_space _ hv rfl
  simp only [scanLines, hm, Bool.false_eq_true, if_false, hc,
    show ("Upload Time: " ++ v).data.contains ':' = true from rfl, if_true,
    show keyOf ("Upload Time: " ++ v) = "Upload Time" from rfl]
  rw [if_neg (by decide), if_neg (by decide), hval]

theorem scan_step_downloaded (v : String) (rest : List String) (st : ScanState)
    (hc : st.comments = false)
    (hm : pyContains ("Downloaded: " ++ v) commentsMarker = false)
    (hv : pyStrip v = v) :
    scanLines (("Downloaded: " ++ v) :: rest) st =
      match strptime v with
      | some dt => scanLines rest { st with download_time := some dt }
      | none => .error .timestampFormatError := by
  have hval : valOf ("Downloaded: " ++ v) = v := valOf_label_space _ hv rfl
  simp only [scanLines, hm, Bool.false_eq_true, if_false, hc,
    show ("Downloaded: " ++ v).data.contains ':' = true from rfl, if_true,
    show keyOf ("Downloaded: " ++ v) = "Downloaded" from rfl]
  rw [if_neg (by decide), if_neg (by decide), if_neg (by decide),
    if_neg (by decide), hval]

/-! ### Inversion of parse_galleryinfo -/

theorem parse_galleryinfo_scan_error (folder content : String)
    (listing : List DirEntry) (mtime : Int) (e : PyErr) (g : Int)
    (hg : parse_gid folder = .ok g)
    (hs : scanLines (fileLines content) initScan = .error e) :
    parse_galleryinfo folder content listing mtime = .error e := by
  unfold parse_galleryinfo
  rw [hg, hs]

theorem parse_galleryinfo_missing (folder content : String)
    (listing : List DirEntry) (mtime : Int) (g : Int) (st : ScanState)
    (hg : parse_gid folder = .ok g)
    (hs : scanLines (fileLines content) initScan = .ok st)
    (hnone : st.title = none ∨ st.upload_time = none ∨
      st.upload_account = none ∨ st.download_time = none ∨ st.tags = none) :
    parse_galleryinfo folder content listing mtime =
      .error .missingFieldError := by
  unfold parse_galleryinfo
  rw [hg, hs]
  cases h1 : st.title <;> cases h2 : st.upload_time <;>
    cases h3 : st.upload_account <;> cases h4 : st.download_time <;>
    cases h5 : st.tags <;> simp_all

theorem parse_galleryinfo_complete (folder content : String)
    (listing : List DirEntry) (mtime : Int) (g : Int) (st : ScanState)
    (t ua : String) (ut dt : PyDateTime) (tg : List (String × String))
    (hg : parse_gid folder = .ok g)
    (hs : scanLines (fileLines content) initScan = .ok st)
    (h1 : st.title = some t) (h2 : st.upload_time = some ut)
    (h3 : st.upload_account = some ua) (h4 : st.download_time = some dt)
    (h5 : st.tags = some tg) :
    parse_galleryinfo folder content listing mtime =
      .ok (mkGalleryInfoParser folder (basename folder) g
        (listing.map (fun e => e.name)) mtime t ut
        (pyStripNL (joinNL st.comment_lines)) ua dt tg) := by
  unfold parse_galleryinfo
  rw [hg, hs]
  simp [h1, h2, h3, h4, h5]

theorem parse_galleryinfo_ok (folder content : String)
    (listing : List DirEntry) (mtime : Int) (r : GalleryInfoParser)
    (h : parse_galleryinfo folder content listing mtime = .ok r) :
    ∃ g st, parse_gid folder = .ok g ∧
      scanLines (fileLines content) initScan = .ok st ∧
      st.title = some r.title ∧ st.upload_time = some r.upload_time ∧
      st.upload_account = some r.upload_account ∧
      st.download_time = some r.download_time ∧ st.tags = some r.tags ∧
      r.galleries_comments = pyStripNL (joinNL st.comment_lines) := by
  unfold parse_galleryinfo at h
  cases hg : parse_gid folder with
  | error e => rw [hg] at h; simp at h
  | ok g =>
    rw [hg] at h
    cases hs : scanLines (fileLines content) initScan with
    | error e => rw [hs] at h; simp at h
    | ok st =>
      rw [hs] at h
      refine ⟨g, st, rfl, rfl, ?_⟩
      cases h1 : st.title <;> cases h2 : st.upload_time <;>
        cases h3 : st.upload_account <;> cases h4 : st.download_time <;>
        cases h5 : st.tags <;> simp_all [mkGalleryInfoParser]
      subst h
      simp

/-! ### Digit strings and int() -/

/-- Value of a digit string read left to right. -/
def digitsVal (cs : List Char) : Nat :=
  cs.foldl (fun x c => 10 * x + digitVal c) 0

theorem isDigit_not_pySpace {c : Char} (h : c.isDigit = true) :
    isPySpace c = false := by
  cases hs : isPySpace c
  · rfl
  · exfalso
    simp only [isPySpace, Bool.or_eq_true, decide_eq_true_eq, or_assoc] at hs
    rcases hs with h1 | h1 | h1 | h1 | h1 | h1 <;> subst h1 <;>
      exact absurd h (by decide)

theorem isDigit_ne_of {c : Char} (h : c.isDigit = true) (x : Char)
    (hx : x.isDigit = false) : c ≠ x := by
  intro he
  rw [he, hx] at h
  cases h

theorem stripList_digits {cs : List Char}
    (h : ∀ c ∈ cs, c.isDigit = true) : stripList isPySpace cs = cs :=
  stripList_eq_self_of_all (fun a ha => isDigit_not_pySpace (h a ha))

theorem goDigits_digits :
    ∀ (cs : List Char) (a : Nat), (∀ c ∈ cs, c.isDigit = true) →
      goDigits cs a = some (cs.foldl (fun x c => 10 * x + digitVal c) a)
  | [], _, _ => rfl
  | c :: rest, a, h => by
    have hc : c.isDigit = true := h c (by simp)
    have hne : c ≠ '_' := isDigit_ne_of hc '_' (by decide)
    rw [goDigits.eq_def]
    simp only []
    rw [if_neg hne, if_pos hc, List.foldl_cons,
      goDigits_digits rest _ (fun x hx => h x (by simp [hx]))]

theorem parseUDigits_digits {cs : List Char}
    (h : ∀ c ∈ cs, c.isDigit = true) (hne : cs ≠ []) :
    parseUDigits cs = some (digitsVal cs) := by
  cases cs with
  | nil => exact absurd rfl hne
  | cons c rest =>
    rw [parseUDigits, if_pos (h c (by simp)),
      goDigits_digits rest _ (fun x hx => h x (by simp [hx]))]
    simp [digitsVal]

theorem pyInt_digits {s : String}
    (h : ∀ c ∈ s.data, c.isDigit = true) (hne : s.data ≠ []) :
    pyInt s = some ((digitsVal s.data : Nat) : Int) := by
  have hstrip : stripList isPySpace s.data = s.data := stripList_digits h
  obtain ⟨c, rest, hd⟩ : ∃ c rest, s.data = c :: rest := by
    cases hcs : s.data with
    | nil => exact absurd hcs hne
    | cons c rest => exact ⟨c, rest, rfl⟩
  have hc : c.isDigit = true := h c (by simp [hd])
  have hstrip2 : stripList isPySpace (c :: rest) = c :: rest := by
    rw [← hd]
    exact hstrip
  simp only [pyInt, hd, hstrip2]
  rw [if_neg (isDigit_ne_of hc '+' (by decide)),
    if_neg (isDigit_ne_of hc '-' (by decide)),
    parseUDigits_digits (fun x hx => h x (by rw [hd]; exact hx)) (by simp)]
  simp

/-! ### parse_gid extraction -/

theorem takeWhile_ne_eq_self_of_not_mem {c : Char} {cs : List Char}
    (h : c ∉ cs) : cs.takeWhile (fun a => a != c) = cs :=
  takeWhile_eq_self_of_all (fun a ha => by
    simp only [bne_iff_ne, ne_eq, decide_eq_true_eq]
    intro he
    exact h (he ▸ ha))

theorem afterLastChar_of_not_mem {c : Char} {cs : List Char} (h : c ∉ cs) :
    afterLastChar c cs = cs := by
  unfold afterLastChar
  rw [takeWhile_ne_eq_self_of_not_mem (by simp [h]), List.reverse_reverse]

theorem afterLastChar_append {c : Char} (l1 : List Char) {l2 : List Char}
    (h : c ∉ l2) : afterLastChar c (l1 ++ c :: l2) = l2 := by
  unfold afterLastChar
  rw [List.reverse_append, List.reverse_cons, List.append_assoc]
  simp only [List.singleton_append]
  rw [takeWhile_append_cons _ _ (by simp),
    takeWhile_ne_eq_self_of_not_mem (by simp [h]), List.reverse_reverse]

/-! ### The tag rule as the specification words it -/

/-- The specification's (claim C6's) per-token rule: trim the token
first; if the trimmed token contains a colon, split it at the first
colon, trim both parts and substitute "untagged" for an empty category;
otherwise emit ("untagged", trimmed token). -/
def specTagOfToken (token : String) : String × String :=
  if (pyStrip token).data.contains ':' then
    if pyStrip (String.mk ((pyStrip token).data.takeWhile (fun c => c != ':'))) =
        "" then
      ("untagged",
        pyStrip (String.mk
          (((pyStrip token).data.dropWhile (fun c => c != ':')).drop 1)))
    else
      (pyStrip (String.mk ((pyStrip token).data.takeWhile (fun c => c != ':'))),
        pyStrip (String.mk
          (((pyStrip token).data.dropWhile (fun c => c != ':')).drop 1)))
  else ("untagged", pyStrip token)

/-- The specification's tag-list parser: split on commas, apply the
per-token rule, preserving order and duplicates. -/
def specParseTags (value : String) : List (String × String) :=
  ((splitChar ',' value.data).map String.mk).map specTagOfToken

theorem mem_of_mem_stripList {p : Char → Bool} {a : Char} {cs : List Char}
    (h : a ∈ stripList p cs) : a ∈ cs := by
  rw [stripList_eq] at h
  exact (List.dropWhile_sublist p).subset
    ((List.rdropWhile_prefix _ _).sublist.subset h)

theorem all_ne_colon {a : List Char} (hnotin : ':' ∉ a) :
    ∀ x ∈ a, (x != ':') = true := by
  intro x hx
  simp only [bne_iff_ne, ne_eq]
  intro he
  exact hnotin (he ▸ hx)

theorem tagOfToken_eq_spec (tag : String) :
    tagOfToken tag = specTagOfToken tag := by
  by_cases hc : ':' ∈ tag.data
  · obtain ⟨a, b, hab, hnotin⟩ := exists_split_first hc
    have hstrip : (pyStrip tag).data =
        List.dropWhile isPySpace a ++ ':' :: List.rdropWhile isPySpace b := by
      show stripList isPySpace tag.data = _
      rw [hab, stripList_append_cons _ _ (by decide)]
    have hnotin2 : ':' ∉ List.dropWhile isPySpace a := fun hx =>
      hnotin ((List.dropWhile_sublist isPySpace).subset hx)
    have hkey : tag.data.takeWhile (fun c => c != ':') = a := by
      rw [hab, takeWhile_append_cons _ _ (by simp),
        takeWhile_eq_self_of_all (all_ne_colon hnotin)]
    have hval : (tag.data.dropWhile (fun c => c != ':')).drop 1 = b := by
      rw [hab, dropWhile_append_all _ (all_ne_colon hnotin),
        List.dropWhile_cons]
      simp
    have hkey2 : (pyStrip tag).data.takeWhile (fun c => c != ':') =
        List.dropWhile isPySpace a := by
      rw [hstrip, takeWhile_append_cons _ _ (by simp),
        takeWhile_eq_self_of_all (all_ne_colon hnotin2)]
    have hval2 : ((pyStrip tag).data.dropWhile (fun c => c != ':')).drop 1 =
        List.rdropWhile isPySpace b := by
      rw [hstrip, dropWhile_append_all _ (all_ne_colon hnotin2),
        List.dropWhile_cons]
      simp
    have hK : pyStrip (String.mk ((pyStrip tag).data.takeWhile
        (fun c => c != ':'))) = pyStrip (String.mk (tag.data.takeWhile
        (fun c => c != ':'))) := by
      rw [hkey, hkey2]
      show String.mk (stripList isPySpace (List.dropWhile isPySpace a)) =
        String.mk (stripList isPySpace a)
      rw [stripList_dropWhile]
    have hV : pyStrip (String.mk (((pyStrip tag).data.dropWhile
        (fun c => c != ':')).drop 1)) = pyStrip (String.mk ((tag.data.dropWhile
        (fun c => c != ':')).drop 1)) := by
      rw [hval, hval2]
      show String.mk (stripList isPySpace (List.rdropWhile isPySpace b)) =
        String.mk (stripList isPySpace b)
      rw [stripList_rdropWhile]
    have hc1 : tag.data.contains ':' = true := (contains_iff_mem _ _).mpr hc
    have hc2 : (pyStrip tag).data.contains ':' = true := by
      rw [contains_iff_mem, hstrip]
      simp
    rw [tagOfToken, specTagOfToken, if_pos hc1, if_pos hc2, hK, hV]
    by_cases hemp : pyStrip (String.mk (tag.data.takeWhile
        (fun c => c != ':'))) = ""
    · rw [if_neg (by simp [hemp]), if_pos hemp]
    · rw [if_pos hemp, if_neg hemp]
  · have hc1 : tag.data.contains ':' = false := by
      cases hb : tag.data.contains ':'
      · rfl
      · exact absurd ((contains_iff_mem _ _).mp hb) hc
    have hc2 : (pyStrip tag).data.contains ':' = false := by
      cases hb : (pyStrip tag).data.contains ':'
      · rfl
      · exact absurd (mem_of_mem_stripList ((contains_iff_mem _ _).mp hb)) hc
    rw [tagOfToken, specTagOfToken,
      if_neg (by simp only [hc1]; simp [hc]),
      if_neg (by simp only [hc2]; simp
        [show ':' ∉ (pyStrip tag).data from
          fun hx => hc (mem_of_mem_stripList hx)])]

theorem parseTags_eq_spec (value : String) :
    parseTags value = specParseTags value := by
  unfold parseTags specParseTags
  exact List.map_congr_left (fun t _ => tagOfToken_eq_spec t)

/-! ### Formatting well-formed field values (for the round-trip claim) -/

/-- The decimal digit character for `k < 10`. -/
def digitChar (k : Nat) : Char := Char.ofNat (48 + k)

/-- A two-digit zero-padded decimal rendering. -/
def pad2 (n : Nat) : List Char := [digitChar (n / 10), digitChar (n % 10)]

/-- A four-digit zero-padded decimal rendering. -/
def pad4 (n : Nat) : List Char :=
  [digitChar (n / 1000 % 10), digitChar (n / 100 % 10),
    digitChar (n / 10 % 10), digitChar (n % 10)]

/-- A timestamp rendered in the sidecar's fixed format
`"%Y-%m-%d %H:%M"` (zero-padded). -/
def fmtTS (y mo d h mi : Nat) : String :=
  String.mk (pad4 y ++ '-' :: (pad2 mo ++ ('-' :: (pad2 d ++
    (' ' :: (pad2 h ++ (':' :: pad2 mi)))))))

/-- A tag list rendered the way the sidecar carries it:
`"c1:v1, c2:v2, ..."`. -/
def fmtTagsList : List (String × String) → String
  | [] => ""
  | [p] => p.1 ++ ":" ++ p.2
  | p :: q :: rest => p.1 ++ ":" ++ p.2 ++ ", " ++ fmtTagsList (q :: rest)

theorem digitChar_isDigit {k : Nat} (h : k < 10) :
    (digitChar k).isDigit = true := by
  interval_cases k <;> decide

theorem digitVal_digitChar {k : Nat} (h : k < 10) :
    digitVal (digitChar k) = k := by
  interval_cases k <;> decide

theorem digitChar_not_space {k : Nat} (h : k < 10) :
    isPySpace (digitChar k) = false := by
  interval_cases k <;> decide

theorem matchYear_pad4 (y : Nat) (hy : y ≤ 9999) (rest : List Char) :
    matchYear (pad4 y ++ rest) = some (y, rest) := by
  have h3 : y / 1000 % 10 < 10 := Nat.mod_lt _ (by norm_num)
  have h2 : y / 100 % 10 < 10 := Nat.mod_lt _ (by norm_num)
  have h1 : y / 10 % 10 < 10 := Nat.mod_lt _ (by norm_num)
  have h0 : y % 10 < 10 := Nat.mod_lt _ (by norm_num)
  simp only [pad4, List.cons_append, List.nil_append]
  rw [matchYear.eq_def]
  simp only [digitChar_isDigit h3, digitChar_isDigit h2, digitChar_isDigit h1,
    digitChar_isDigit h0, digitVal_digitChar h3, digitVal_digitChar h2,
    digitVal_digitChar h1, digitVal_digitChar h0, Bool.and_self, if_true]
  have hv : ((y / 1000 % 10 * 10 + y / 100 % 10) * 10 + y / 10 % 10) * 10 +
      y % 10 = y := by omega
  rw [hv]

theorem matchMonth_pad2 (mo : Nat) (h1 : 1 ≤ mo) (h2 : mo ≤ 12)
    (rest : List Char) : matchMonth (pad2 mo ++ rest) = some (mo, rest) := by
  interval_cases mo <;> simp [pad2, matchMonth, digitChar] <;> decide

theorem matchDay_pad2 (d : Nat) (h1 : 1 ≤ d) (h2 : d ≤ 31)
    (rest : List Char) : matchDay (pad2 d ++ rest) = some (d, rest) := by
  interval_cases d <;> simp [pad2, matchDay, digitChar] <;> decide

theorem matchHour_pad2 (h : Nat) (h2 : h ≤ 23) (rest : List Char) :
    matchHour (pad2 h ++ rest) = some (h, rest) := by
  interval_cases h <;> simp [pad2, matchHour, digitChar] <;> decide

theorem matchMinute_pad2 (mi : Nat) (h2 : mi ≤ 59) (rest : List Char) :
    matchMinute (pad2 mi ++ rest) = some (mi, rest) := by
  interval_cases mi <;> simp [pad2, matchMinute, digitChar] <;> decide

theorem matchLit_cons (c : Char) (rest : List Char) :
    matchLit c (c :: rest) = some rest := by
  simp [matchLit]

theorem matchSpaces_one {rest : List Char}
    (h : rest.dropWhile isPySpace = rest) :
    matchSpaces (' ' :: rest) = some rest := by
  simp [matchSpaces, h, show isPySpace ' ' = true from by decide]

theorem matchMinute_pad2_nil (mi : Nat) (h2 : mi ≤ 59) :
    matchMinute (pad2 mi) = some (mi, []) := by
  have h := matchMinute_pad2 mi h2 []
  simpa using h

theorem daysInMonth_le_31 (y m : Nat) : daysInMonth y m ≤ 31 := by
  unfold daysInMonth
  split_ifs <;> norm_num

theorem stripList_eq_self_of_ends {p : Char → Bool} {cs : List Char}
    {a b : Char} (h1 : cs.head? = some a) (ha : p a = false)
    (h2 : cs.getLast? = some b) (hb : p b = false) : stripList p cs = cs := by
  have hd : List.dropWhile p cs = cs := by
    cases cs with
    | nil => cases h1
    | cons c t =>
      injection h1 with h1
      subst h1
      simp [List.dropWhile_cons, ha]
  rw [stripList_eq, hd, List.rdropWhile_eq_self_iff]
  intro hl
  have hg := List.getLast?_eq_getLast cs hl
  rw [hg] at h2
  injection h2 with h2
  rw [h2, hb]
  simp

theorem pyStrip_fmtTS (y mo d h mi : Nat) :
    pyStrip (fmtTS y mo d h mi) = fmtTS y mo d h mi := by
  have h3 : y / 1000 % 10 < 10 := Nat.mod_lt _ (by norm_num)
  have h0 : mi % 10 < 10 := Nat.mod_lt _ (by norm_num)
  have hhead : (fmtTS y mo d h mi).data.head? =
      some (digitChar (y / 1000 % 10)) := by
    simp [fmtTS, pad4, List.head?_cons]
  have hlast : (fmtTS y mo d h mi).data.getLast? =
      some (digitChar (mi % 10)) := by
    rw [← List.head?_reverse]
    simp [fmtTS, pad4, pad2, List.reverse_append]
  show String.mk (stripList isPySpace (fmtTS y mo d h mi).data) = _
  rw [stripList_eq_self_of_ends hhead (digitChar_not_space h3) hlast
    (digitChar_not_space h0)]

/-- The fixed-format rendering of any valid datetime parses back to it. -/
theorem strptime_fmtTS (y mo d h mi : Nat) (hy1 : 1 ≤ y) (hy2 : y ≤ 9999)
    (hm1 : 1 ≤ mo) (hm2 : mo ≤ 12) (hd1 : 1 ≤ d)
    (hd2 : d ≤ daysInMonth y mo) (hh : h ≤ 23) (hmi : mi ≤ 59) :
    strptime (fmtTS y mo d h mi) = some ⟨y, mo, d, h, mi⟩ := by
  have hd31 : d ≤ 31 := le_trans hd2 (daysInMonth_le_31 y mo)
  rw [strptime]
  rw [show (fmtTS y mo d h mi).data = pad4 y ++ '-' :: (pad2 mo ++ ('-' ::
    (pad2 d ++ (' ' :: (pad2 h ++ (':' :: pad2 mi)))))) from rfl]
  have hsp : matchSpaces (' ' :: (pad2 h ++ (':' :: pad2 mi))) =
      some (pad2 h ++ (':' :: pad2 mi)) := by
    refine matchSpaces_one ?_
    have hq : h / 10 < 10 := by omega
    simp [pad2, List.dropWhile_cons, digitChar_not_space hq]
  simp only [matchYear_pad4 y hy2, Option.bind_eq_bind, Option.some_bind,
    matchLit_cons '-', matchMonth_pad2 mo hm1 hm2, matchDay_pad2 d hd1 hd31,
    hsp, matchHour_pad2 h hh, matchLit_cons ':',
    matchMinute_pad2 mi hmi, matchMinute_pad2_nil mi hmi]
  simp [hy1, hd2]

/-! ### Splitting formatted tag lists -/

theorem splitChar_ne_nil (sep : Char) (cs : List Char) :
    splitChar sep cs ≠ [] := by
  cases cs with
  | nil => simp [splitChar]
  | cons c rest =>
    simp only [splitChar]
    rcases hs : splitChar sep rest with _ | ⟨t, ts⟩
    · simp
    · by_cases hc : c = sep <;> simp [hc]

theorem splitChar_not_mem {sep : Char} {cs : List Char} (h : sep ∉ cs) :
    splitChar sep cs = [cs] := by
  induction cs with
  | nil => rfl
  | cons c rest ih =>
    have hc : c ≠ sep := fun he => h (by simp [he])
    have hr : sep ∉ rest := fun hx => h (by simp [hx])
    simp only [splitChar, ih hr]
    simp [hc]

theorem splitChar_append_cons {l1 : List Char} (h : ',' ∉ l1)
    (cs : List Char) :
    splitChar ',' (l1 ++ ',' :: cs) = l1 :: splitChar ',' cs := by
  induction l1 with
  | nil =>
    simp only [List.nil_append, splitChar]
    cases hs : splitChar ',' cs with
    | nil => exact absurd hs (splitChar_ne_nil ',' cs)
    | cons t ts => simp
  | cons a l ih =>
    have ha : a ≠ ',' := fun he => h (by simp [he])
    have hl : ',' ∉ l := fun hx => h (by simp [hx])
    simp only [List.cons_append, splitChar, List.append_eq]
    rw [ih hl]
    simp [ha]

theorem splitChar_cons_ne {sep a : Char} (ha : a ≠ sep) {cs t : List Char}
    {ts : List (List Char)} (h : splitChar sep cs = t :: ts) :
    splitChar sep (a :: cs) = (a :: t) :: ts := by
  simp only [splitChar, h]
  simp [ha]

/-- A well-formed tag pair as the round-trip claim assumes it: trimmed
category and value, nonempty category, no comma in either and no colon
in the category. -/
def cleanTag (p : String × String) : Prop :=
  pyStrip p.1 = p.1 ∧ pyStrip p.2 = p.2 ∧ p.1 ≠ "" ∧
    ',' ∉ p.1.data ∧ ',' ∉ p.2.data ∧ ':' ∉ p.1.data

theorem tagOfToken_pair {c v : String} (h1 : pyStrip c = c)
    (h2 : pyStrip v = v) (hne : c ≠ "") (hcol : ':' ∉ c.data) :
    tagOfToken (String.mk (c.data ++ ':' :: v.data)) = (c, v) := by
  have hcont : (c.data ++ ':' :: v.data).contains ':' = true :=
    (contains_iff_mem _ _).mpr (by simp)
  have hkey : (c.data ++ ':' :: v.data).takeWhile (fun x => x != ':') =
      c.data := by
    rw [takeWhile_append_cons _ _ (by simp),
      takeWhile_eq_self_of_all (all_ne_colon hcol)]
  have hval : ((c.data ++ ':' :: v.data).dropWhile
      (fun x => x != ':')).drop 1 = v.data := by
    rw [dropWhile_append_all _ (all_ne_colon hcol), List.dropWhile_cons]
    simp
  rw [tagOfToken]
  simp only [show (String.mk (c.data ++ ':' :: v.data)).data =
    c.data ++ ':' :: v.data from rfl, hcont, hkey, hval,
    show String.mk c.data = c from rfl, show String.mk v.data = v from rfl,
    h1, h2]
  simp [hne]

theorem pyStrip_mk_cons_space (X : List Char) :
    pyStrip (String.mk (' ' :: X)) = pyStrip (String.mk X) := by
  show String.mk (stripList isPySpace (' ' :: X)) =
    String.mk (stripList isPySpace X)
  rw [stripList_cons_of_pos _ (by decide)]

theorem tagOfToken_cons_space (t : List Char) :
    tagOfToken (String.mk (' ' :: t)) = tagOfToken (String.mk t) := by
  have hkey : (' ' :: t).takeWhile (fun x => x != ':') =
      ' ' :: t.takeWhile (fun x => x != ':') := by
    rw [List.takeWhile_cons]
    simp
  have hval : (' ' :: t).dropWhile (fun x => x != ':') =
      t.dropWhile (fun x => x != ':') := by
    rw [List.dropWhile_cons]
    simp
  by_cases hc : ':' ∈ t
  · have hc1 : (' ' :: t).contains ':' = true :=
      (contains_iff_mem _ _).mpr (by simp [hc])
    have hc2 : t.contains ':' = true := (contains_iff_mem _ _).mpr hc
    rw [tagOfToken, tagOfToken]
    simp only [show (String.mk (' ' :: t)).data = ' ' :: t from rfl,
      show (String.mk t).data = t from rfl, hc1, hc2, hkey, hval,
      pyStrip_mk_cons_space]
  · have hc1 : (' ' :: t).contains ':' = false := by
      cases hb : (' ' :: t).contains ':'
      · rfl
      · have := (contains_iff_mem _ _).mp hb
        simp at this
        exact absurd this hc
    have hc2 : t.contains ':' = false := by
      cases hb : t.contains ':'
      · rfl
      · exact absurd ((contains_iff_mem _ _).mp hb) hc
    rw [tagOfToken, tagOfToken]
    simp only [show (String.mk (' ' :: t)).data = ' ' :: t from rfl,
      show (String.mk t).data = t from rfl, hc1, hc2, Bool.false_eq_true,
      if_false, pyStrip_mk_cons_space]

theorem splitChar_fmtTagsList :
    ∀ tg : List (String × String), tg ≠ [] → (∀ p ∈ tg, cleanTag p) →
      ∃ t ts, splitChar ',' (fmtTagsList tg).data = t :: ts ∧
        (t :: ts).map (fun l => tagOfToken (String.mk l)) = tg
  | [], h, _ => absurd rfl h
  | [p], _, hP => by
    obtain ⟨hp1, hp2, hpne, hpc1, hpc2, hpcol⟩ := hP p (by simp)
    have hd : (fmtTagsList [p]).data = p.1.data ++ ':' :: p.2.data := by
      show (p.1 ++ ":" ++ p.2).data = _
      rw [String.data_append, String.data_append]
      simp [List.append_assoc]
    refine ⟨p.1.data ++ ':' :: p.2.data, [], ?_, ?_⟩
    · rw [hd]
      exact splitChar_not_mem (by simp [hpc1, hpc2])
    · simp [tagOfToken_pair hp1 hp2 hpne hpcol]
  | p :: q :: rest2, _, hP => by
    obtain ⟨hp1, hp2, hpne, hpc1, hpc2, hpcol⟩ := hP p (by simp)
    obtain ⟨t, ts, hsplit, hmap⟩ :=
      splitChar_fmtTagsList (q :: rest2) (by simp)
        (fun x hx => hP x (by simp [hx]))
    have hd : (fmtTagsList (p :: q :: rest2)).data =
        (p.1.data ++ ':' :: p.2.data) ++
          ',' :: ' ' :: (fmtTagsList (q :: rest2)).data := by
      show (p.1 ++ ":" ++ p.2 ++ ", " ++ fmtTagsList (q :: rest2)).data = _
      rw [String.data_append, String.data_append, String.data_append]
      simp [List.append_assoc]
    rw [List.map_cons] at hmap
    injection hmap with hm1 hm2
    refine ⟨p.1.data ++ ':' :: p.2.data, (' ' :: t) :: ts, ?_, ?_⟩
    · rw [hd, splitChar_append_cons (by simp [hpc1, hpc2]),
        splitChar_cons_ne (by decide) hsplit]
    · simp only [List.map_cons, tagOfToken_pair hp1 hp2 hpne hpcol,
        tagOfToken_cons_space, hm1, hm2]

/-- A well-formed formatted tag list parses back to itself. -/
theorem parseTags_fmtTagsList (tg : List (String × String)) (hne : tg ≠ [])
    (hP : ∀ p ∈ tg, cleanTag p) : parseTags (fmtTagsList tg) = tg := by
  obtain ⟨t, ts, hsplit, hmap⟩ := splitChar_fmtTagsList tg hne hP
  unfold parseTags
  rw [hsplit, List.map_map]
  exact hmap

/-! ### Claim C2: the lazily cached page count -/

/-- C2 is refuted as stated: a record whose gallery folder holds zero
regular files at the first `pages` access computes `0 - 1 = -1` and
stores it, but `-1` is also the not-yet-computed sentinel, so a later
access against a changed directory recomputes and returns a different
value instead of the cached one. -/
theorem pages_cache_refuted :
    (pagesAccess []
      (mkGalleryInfoParser "f" "f" 1 [] 0 "t" ⟨2023, 1, 1, 0, 0⟩ "" "u"
        ⟨2023, 1, 1, 0, 0⟩ [])).1 = -1 ∧
    (pagesAccess [⟨"a", true⟩, ⟨"b", true⟩]
      (pagesAccess []
        (mkGalleryInfoParser "f" "f" 1 [] 0 "t" ⟨2023, 1, 1, 0, 0⟩ "" "u"
          ⟨2023, 1, 1, 0, 0⟩ [])).2).1 = 1 ∧
    (1 : Int) ≠ -1 :=
  ⟨rfl, rfl, by decide⟩

/-- C2 (amended): the first access of `pages` computes the number of
regular files in the folder at access time minus one and caches it;
provided that count is nonzero (so the cached value is not the `-1`
sentinel), every later access returns the cached value unchanged without
recomputation, even if the directory has changed; and a record whose
slot already differs from `-1` always returns the slot unchanged. -/
theorem pagesAccess_computes_then_caches :
    (∀ (r : GalleryInfoParser) (listing1 listing2 : List DirEntry),
      r.pagesSlot = -1 →
      (pagesAccess listing1 r).1 =
        (count_files_in_directory listing1 : Int) - 1 ∧
      (count_files_in_directory listing1 ≠ 0 →
        pagesAccess listing2 (pagesAccess listing1 r).2 =
          ((count_files_in_directory listing1 : Int) - 1,
            (pagesAccess listing1 r).2))) ∧
    (∀ (r : GalleryInfoParser) (listing : List DirEntry),
      r.pagesSlot ≠ -1 → pagesAccess listing r = (r.pagesSlot, r)) := by
  constructor
  · intro r l1 l2 h
    have h1 : pagesAccess l1 r =
        ((count_files_in_directory l1 : Int) - 1,
          { r with pagesSlot := (count_files_in_directory l1 : Int) - 1 }) := by
      unfold pagesAccess
      rw [if_pos h]
    refine ⟨by rw [h1], ?_⟩
    intro hc
    rw [h1]
    unfold pagesAccess
    rw [if_neg (show ¬((count_files_in_directory l1 : Int) - 1 = -1) by
      omega)]
  · intro r l h
    unfold pagesAccess
    rw [if_neg h]

theorem pagesAccess_computes_then_caches_witness :
    (mkGalleryInfoParser "g" "g" 2 [] 0 "t" ⟨2023, 1, 1, 0, 0⟩ "" "u"
      ⟨2023, 1, 1, 0, 0⟩ []).pagesSlot = -1 ∧
    (pagesAccess [⟨"s", true⟩, ⟨"p1", true⟩, ⟨"p2", true⟩]
      (mkGalleryInfoParser "g" "g" 2 [] 0 "t" ⟨2023, 1, 1, 0, 0⟩ "" "u"
        ⟨2023, 1, 1, 0, 0⟩ [])).1 = 2 ∧
    pagesAccess []
      (pagesAccess [⟨"s", true⟩, ⟨"p1", true⟩, ⟨"p2", true⟩]
        (mkGalleryInfoParser "g" "g" 2 [] 0 "t" ⟨2023, 1, 1, 0, 0⟩ "" "u"
          ⟨2023, 1, 1, 0, 0⟩ [])).2 =
      (2, (pagesAccess [⟨"s", true⟩, ⟨"p1", true⟩, ⟨"p2", true⟩]
        (mkGalleryInfoParser "g" "g" 2 [] 0 "t" ⟨2023, 1, 1, 0, 0⟩ "" "u"
          ⟨2023, 1, 1, 0, 0⟩ [])).2) := by
  have h := pagesAccess_computes_then_caches.1
    (mkGalleryInfoParser "g" "g" 2 [] 0 "t" ⟨2023, 1, 1, 0, 0⟩ "" "u"
      ⟨2023, 1, 1, 0, 0⟩ [])
    [⟨"s", true⟩, ⟨"p1", true⟩, ⟨"p2", true⟩] [] rfl
  exact ⟨rfl, h.1, h.2 (by decide)⟩

/-! ### Claim C3: the id extraction from the folder name -/

/-- The bracket substring as claim C3 words it: the substring between
the LAST `[` and the trailing `]` of the basename; defined when both
brackets occur and the name in fact ends with `]`. -/
def gidSpecText (name : String) : Option String :=
  if name.data.contains '[' && name.data.contains ']' then
    if name.data.getLast? = some ']' then
      some (String.mk ((afterLastChar '[' name.data).dropLast))
    else none
  else none

/-- C3 is refuted as stated: on the basename `"a[1]2]"` the substring
between the last `[` and the trailing `]` is `"1]2"`, which is not an
integer, yet `parse_gid` returns 12 — the code removes every `]` from
the text after the last `[` instead. -/
theorem parse_gid_bracket_refuted :
    parse_gid "a[1]2]" = .ok 12 ∧
    gidSpecText "a[1]2]" = some "1]2" ∧
    pyInt "1]2" = none :=
  ⟨rfl, rfl, rfl⟩

/-- C3 (amended): when the basename contains both `[` and `]`,
`parse_gid` parses the text after the LAST `[` with every `]` removed;
for a name of the form `"X [N]"` with `N` a digit literal it returns the
value of `N`; a basename without the bracket pair is parsed whole. -/
theorem parse_gid_characterization :
    (∀ folder : String,
      ((basename folder).data.contains '[' &&
        (basename folder).data.contains ']') = true →
      parse_gid folder =
        match pyInt (String.mk ((afterLastChar '['
            (basename folder).data).filter (fun c => c != ']'))) with
        | some n => .ok n
        | none => .error .invalidIdentifier) ∧
    (∀ folder : String,
      ((basename folder).data.contains '[' &&
        (basename folder).data.contains ']') = false →
      parse_gid folder =
        match pyInt (basename folder) with
        | some n => .ok n
        | none => .error .invalidIdentifier) ∧
    (∀ x s : String, '/' ∉ x.data → s.data ≠ [] →
      (∀ c ∈ s.data, c.isDigit = true) →
      parse_gid (x ++ " [" ++ s ++ "]") = .ok (digitsVal s.data)) := by
  refine ⟨?_, ?_, ?_⟩
  · intro folder hb
    unfold parse_gid gidText
    rw [hb]
    simp
  · intro folder hb
    unfold parse_gid gidText
    rw [hb]
    simp
  · intro x s hx hne hdig
    have hdata : (x ++ " [" ++ s ++ "]").data =
        (x.data ++ [' ']) ++ '[' :: (s.data ++ [']']) := by
      rw [String.data_append, String.data_append, String.data_append]
      simp [List.append_assoc]
    have hnoslash : '/' ∉ (x ++ " [" ++ s ++ "]").data := by
      rw [hdata]
      simp only [List.mem_append, List.mem_cons, List.mem_singleton]
      rintro ((hm | hm | hm) | hm | hm | hm | hm)
      · exact hx hm
      · simp at hm
      · simp at hm
      · simp at hm
      · exact absurd rfl (isDigit_ne_of (hdig _ hm) '/' (by decide)).symm
      · simp at hm
      · simp at hm
    have hbase : basename (x ++ " [" ++ s ++ "]") = x ++ " [" ++ s ++ "]" := by
      unfold basename
      rw [afterLastChar_of_not_mem hnoslash]
    have hnolb : '[' ∉ s.data ++ [']'] := by
      simp only [List.mem_append, List.mem_cons, List.mem_singleton]
      rintro (hm | hm | hm)
      · exact absurd rfl (isDigit_ne_of (hdig _ hm) '[' (by decide)).symm
      · simp at hm
      · simp at hm
    have hafter : afterLastChar '[' (x ++ " [" ++ s ++ "]").data =
        s.data ++ [']'] := by
      rw [hdata]
      exact afterLastChar_append _ hnolb
    have hfilter : (s.data ++ [']']).filter (fun c => c != ']') = s.data := by
      rw [List.filter_append]
      rw [List.filter_eq_self.mpr (fun a ha => by
        simp only [bne_iff_ne, ne_eq, decide_eq_true_eq]
        exact isDigit_ne_of (hdig _ ha) ']' (by decide))]
      simp
    have hb : ((basename (x ++ " [" ++ s ++ "]")).data.contains '[' &&
        (basename (x ++ " [" ++ s ++ "]")).data.contains ']') = true := by
      rw [hbase, hdata]
      rw [Bool.and_eq_true, contains_iff_mem, contains_iff_mem]
      constructor
      · simp
      · simp
    unfold parse_gid gidText
    rw [hbase] at hb ⊢
    simp only [hb, if_true]
    rw [hafter, hfilter, pyInt_digits (s := String.mk s.data) hdig hne]

theorem parse_gid_characterization_witness :
    '/' ∉ ("Some Title" : String).data ∧
    parse_gid "Some Title [12345]" = .ok 12345 := by
  refine ⟨by decide, ?_⟩
  have h := parse_gid_characterization.2.2 "Some Title" "12345" (by decide)
    (by decide) (by decide)
  have h2 : parse_gid "Some Title [12345]" =
      .ok ((digitsVal ("12345" : String).data : Nat) : Int) := h
  exact h2.trans (by decide)

/-! ### Claim C6: the tag sub-parser -/

/-- C6: the tag parser splits the "Tags" value on commas, trims each
token, splits a token containing a colon at the FIRST colon into trimmed
(category, value) with "untagged" substituted for an empty category,
emits ("untagged", trimmed token) for a colon-free token, and preserves
encounter order with duplicates allowed; in particular
`"a:1, b:2, 3"` and `":x"` parse as the claim states. -/
theorem parseTags_spec :
    (∀ s : String, parseTags s = specParseTags s) ∧
    parseTags "a:1, b:2, 3" =
      [("a", "1"), ("b", "2"), ("untagged", "3")] ∧
    parseTags ":x" = [("untagged", "x")] ∧
    parseTags "a:1, a:1" = [("a", "1"), ("a", "1")] :=
  ⟨parseTags_eq_spec, by decide, by decide, by decide⟩

/-! ### Claim C7: invalid identifiers -/

/-- C7: `parse_gid` raises InvalidIdentifier exactly when the extracted
text (the text after the last `[` with `]` removed for a bracketed
basename, or the whole basename otherwise) is not a valid integer; in
particular `parse_gid "Foo [abc]"` raises it. -/
theorem parse_gid_invalidIdentifier_iff :
    (∀ folder : String,
      parse_gid folder = .error .invalidIdentifier ↔
        pyInt (gidText (basename folder)) = none) ∧
    parse_gid "Foo [abc]" = .error .invalidIdentifier := by
  refine ⟨?_, by decide⟩
  intro folder
  unfold parse_gid
  cases h : pyInt (gidText (basename folder)) <;> simp [h]

/-! ### Claim C1: a missing required label -/

/-- C1 is refuted as stated: a sidecar missing the `Title:` line need
not raise MissingFieldError — here the `Downloaded` value is malformed,
so `parse_galleryinfo` raises TimestampFormatError instead (the loop
dies before the record construction reads the unassigned title). -/
theorem missing_title_refuted :
    parse_galleryinfo "g [1]"
      "Uploaded By: u\nDownloaded: oops\nTags: a:1" [] 0 =
      .error .timestampFormatError ∧
    PyErr.timestampFormatError ≠ PyErr.missingFieldError :=
  ⟨rfl, by decide⟩

/-- C1 (amended): when the folder id parses and the scan completes
without an earlier error, a sidecar in which some required label
(Title, Upload Time, Uploaded By or Downloaded) is never assigned by a
pre-marker header line makes `parse_galleryinfo` raise
MissingFieldError rather than return a record. -/
theorem parse_missingFieldError_of_absent_label (folder content : String)
    (listing : List DirEntry) (mtime : Int) (g : Int) (st : ScanState)
    (hg : parse_gid folder = .ok g)
    (hs : scanLines (fileLines content) initScan = .ok st)
    (habs : assignsOf "Title" some (fileLines content) = [] ∨
      assignsOf "Upload Time" strptime (fileLines content) = [] ∨
      assignsOf "Uploaded By" some (fileLines content) = [] ∨
      assignsOf "Downloaded" strptime (fileLines content) = []) :
    parse_galleryinfo folder content listing mtime =
      .error .missingFieldError := by
  have hf := scanLines_fields (fileLines content) initScan st rfl hs
  refine parse_galleryinfo_missing folder content listing mtime g st hg hs ?_
  rcases habs with ha | ha | ha | ha
  · exact Or.inl (by rw [hf.1, ha]; rfl)
  · exact Or.inr (Or.inl (by rw [hf.2.2.2.1, ha]; rfl))
  · exact Or.inr (Or.inr (Or.inl (by rw [hf.2.1, ha]; rfl)))
  · exact Or.inr (Or.inr (Or.inr (Or.inl (by rw [hf.2.2.2.2, ha]; rfl))))

theorem parse_missingFieldError_of_absent_label_witness :
    parse_gid "7" = .ok 7 ∧
    parse_galleryinfo "7"
      "Upload Time: 2023-01-02 03:04\nUploaded By: u\nDownloaded: 2023-01-02 03:04\nTags: a:1"
      [] 0 = .error .missingFieldError := by
  refine ⟨by decide, ?_⟩
  exact parse_missingFieldError_of_absent_label "7"
    "Upload Time: 2023-01-02 03:04\nUploaded By: u\nDownloaded: 2023-01-02 03:04\nTags: a:1"
    [] 0 7
    ⟨false, [], some [("a", "1")], none, some ⟨2023, 1, 2, 3, 4⟩, some "u",
      some ⟨2023, 1, 2, 3, 4⟩⟩
    (by decide) (by decide) (Or.inl (by decide))

/-! ### Claim C4: the comment mode of the scanner -/

/-- C4 is refuted as stated: in comment mode a line is not always
appended unless it is the sentinel — a comment line containing the
substring "Uploader\x27s Comments" is discarded (it only re-triggers the
mode switch), so the buffer here is `["hi"]`, not the claimed two
lines. -/
theorem comment_marker_line_refuted :
    scanLines ["Uploader's Comments", "see Uploader's Comments above", "hi"]
      initScan =
      .ok ⟨true, ["hi"], none, none, none, none, none⟩ ∧
    (["hi"] : List String) ≠
      [pyStrip "see Uploader's Comments above", pyStrip "hi"] :=
  ⟨rfl, by decide⟩

/-- C4 (amended): in comment mode every line is trimmed and appended to
the buffer unless it equals the sentinel, which stops the scan with the
remaining lines unexamined, or it contains the comment marker, in which
case it is discarded; the record's final comment text is the buffered
lines joined with newlines and stripped of leading and trailing
newlines. -/
theorem scanLines_comment_mode_spec :
    (∀ (lines : List String) (st : ScanState), st.comments = true →
      scanLines lines st =
        .ok { st with
          comment_lines := st.comment_lines ++ collectComments lines }) ∧
    (∀ (folder content : String) (listing : List DirEntry) (mtime : Int)
      (r : GalleryInfoParser) (st : ScanState),
      parse_galleryinfo folder content listing mtime = .ok r →
      scanLines (fileLines content) initScan = .ok st →
      r.galleries_comments = pyStripNL (joinNL st.comment_lines)) := by
  constructor
  · exact scanLines_comment_state
  · intro folder content listing mtime r st h hs
    obtain ⟨g, st2, _, hs2, _, _, _, _, _, hcom⟩ :=
      parse_galleryinfo_ok folder content listing mtime r h
    rw [hs] at hs2
    injection hs2 with hs2
    rw [hcom, hs2]

theorem scanLines_comment_mode_spec_witness :
    scanLines ["a  ", sentinelLine, "zz"]
      ⟨true, [], none, none, none, none, none⟩ =
      .ok ⟨true, ["a"], none, none, none, none, none⟩ := by
  rw [scanLines_comment_mode_spec.1 ["a  ", sentinelLine, "zz"]
    ⟨true, [], none, none, none, none, none⟩ rfl]
  decide

/-! ### Claim C5: the Tags line is effectively required as well -/

/-- C5 is refuted as stated: a sidecar carrying the four required labels
with valid values but no "Tags" line does not yield a record — the
`tags` variable is never assigned and the construction fails (Python's
UnboundLocalError, the modelled MissingFieldError). -/
theorem four_labels_without_tags_refuted :
    parse_galleryinfo "7"
      "Title: t\nUpload Time: 2023-01-02 03:04\nUploaded By: u\nDownloaded: 2023-01-02 03:04"
      [] 0 = .error .missingFieldError :=
  rfl

/-- C5 (amended): five labels are effectively required — with the four
required labels present and valid but no Tags assignment the parse
fails with MissingFieldError; when Tags is assigned as well, a record
is returned. -/
theorem parse_galleryinfo_requires_tags_too :
    (∀ (folder content : String) (listing : List DirEntry) (mtime : Int)
      (g : Int) (st : ScanState),
      parse_gid folder = .ok g →
      scanLines (fileLines content) initScan = .ok st →
      st.tags = none →
      parse_galleryinfo folder content listing mtime =
        .error .missingFieldError) ∧
    (∀ (folder content : String) (listing : List DirEntry) (mtime : Int)
      (g : Int) (st : ScanState) (t ua : String) (ut dt : PyDateTime)
      (tg : List (String × String)),
      parse_gid folder = .ok g →
      scanLines (fileLines content) initScan = .ok st →
      st.title = some t → st.upload_time = some ut →
      st.upload_account = some ua → st.download_time = some dt →
      st.tags = some tg →
      parse_galleryinfo folder content listing mtime =
        .ok (mkGalleryInfoParser folder (basename folder) g
          (listing.map (fun e => e.name)) mtime t ut
          (pyStripNL (joinNL st.comment_lines)) ua dt tg)) := by
  constructor
  · intro folder content listing mtime g st hg hs htags
    exact parse_galleryinfo_missing folder content listing mtime g st hg hs
      (Or.inr (Or.inr (Or.inr (Or.inr htags))))
  · intro folder content listing mtime g st t ua ut dt tg hg hs h1 h2 h3 h4 h5
    exact parse_galleryinfo_complete folder content listing mtime g st t ua
      ut dt tg hg hs h1 h2 h3 h4 h5

theorem parse_galleryinfo_requires_tags_too_witness :
    parse_galleryinfo "8"
      "Title: other\nUpload Time: 2024-05-06 07:08\nUploaded By: acc\nDownloaded: 2024-05-06 07:08"
      [] 0 = .error .missingFieldError := by
  exact parse_galleryinfo_requires_tags_too.1 "8"
    "Title: other\nUpload Time: 2024-05-06 07:08\nUploaded By: acc\nDownloaded: 2024-05-06 07:08"
    [] 0 8
    ⟨false, [], none, some "other", some ⟨2024, 5, 6, 7, 8⟩, some "acc",
      some ⟨2024, 5, 6, 7, 8⟩⟩
    (by decide) (by decide) (by decide)

/-! ### Claim C9: the fixed timestamp format -/

/-- C9: the "Upload Time" and "Downloaded" header values are parsed with
the fixed "%Y-%m-%d %H:%M" format: a value matching the format is stored
as the field's datetime, a value that does not match aborts the scan
with TimestampFormatError, and a scan error becomes the result of
`parse_galleryinfo` instead of a record. -/
theorem timestamps_use_fixed_format :
    (∀ (v : String) (rest : List String) (st : ScanState),
      st.comments = false →
      pyContains ("Upload Time: " ++ v) commentsMarker = false →
      pyStrip v = v → strptime v = none →
      scanLines (("Upload Time: " ++ v) :: rest) st =
        .error .timestampFormatError) ∧
    (∀ (v : String) (rest : List String) (st : ScanState),
      st.comments = false →
      pyContains ("Downloaded: " ++ v) commentsMarker = false →
      pyStrip v = v → strptime v = none →
      scanLines (("Downloaded: " ++ v) :: rest) st =
        .error .timestampFormatError) ∧
    (∀ (v : String) (rest : List String) (st : ScanState) (dt : PyDateTime),
      st.comments = false →
      pyContains ("Upload Time: " ++ v) commentsMarker = false →
      pyStrip v = v → strptime v = some dt →
      scanLines (("Upload Time: " ++ v) :: rest) st =
        scanLines rest { st with upload_time := some dt }) ∧
    (∀ (v : String) (rest : List String) (st : ScanState) (dt : PyDateTime),
      st.comments = false →
      pyContains ("Downloaded: " ++ v) commentsMarker = false →
      pyStrip v = v → strptime v = some dt →
      scanLines (("Downloaded: " ++ v) :: rest) st =
        scanLines rest { st with download_time := some dt }) ∧
    (∀ (folder content : String) (listing : List DirEntry) (mtime : Int)
      (g : Int) (e : PyErr),
      parse_gid folder = .ok g →
      scanLines (fileLines content) initScan = .error e →
      parse_galleryinfo folder content listing mtime = .error e) := by
  refine ⟨?_, ?_, ?_, ?_, ?_⟩
  · intro v rest st hc hm hv hn
    rw [scan_step_upload_time v rest st hc hm hv, hn]
  · intro v rest st hc hm hv hn
    rw [scan_step_downloaded v rest st hc hm hv, hn]
  · intro v rest st dt hc hm hv hsome
    rw [scan_step_upload_time v rest st hc hm hv, hsome]
  · intro v rest st dt hc hm hv hsome
    rw [scan_step_downloaded v rest st hc hm hv, hsome]
  · intro folder content listing mtime g e hg hs
    exact parse_galleryinfo_scan_error folder content listing mtime e g hg hs

theorem timestamps_use_fixed_format_witness :
    strptime "2023-13-01 10:00" = none ∧
    scanLines ["Upload Time: 2023-13-01 10:00"] initScan =
      .error .timestampFormatError := by
  refine ⟨by decide, ?_⟩
  exact timestamps_use_fixed_format.1 "2023-13-01 10:00" [] initScan rfl
    (by decide) (by decide) (by decide)

/-! ### Claim C10: a later occurrence of a label overwrites an earlier -/

/-- C10: each recognized field of a returned record holds the
interpreted value of the LAST pre-marker header line carrying its label
— later occurrences of Tags, Title, Upload Time, Uploaded By or
Downloaded overwrite earlier ones. -/
theorem record_fields_from_last_occurrence (folder content : String)
    (listing : List DirEntry) (mtime : Int) (r : GalleryInfoParser)
    (h : parse_galleryinfo folder content listing mtime = .ok r) :
    (assignsOf "Title" some (fileLines content)).getLast? = some r.title ∧
    (assignsOf "Uploaded By" some (fileLines content)).getLast? =
      some r.upload_account ∧
    (assignsOf "Tags" (fun v => some (parseTags v))
      (fileLines content)).getLast? = some r.tags ∧
    (assignsOf "Upload Time" strptime (fileLines content)).getLast? =
      some r.upload_time ∧
    (assignsOf "Downloaded" strptime (fileLines content)).getLast? =
      some r.download_time := by
  obtain ⟨g, st, hg, hs, h1, h2, h3, h4, h5, _⟩ :=
    parse_galleryinfo_ok folder content listing mtime r h
  have hf := scanLines_fields (fileLines content) initScan st rfl hs
  have k1 : lastOr (assignsOf "Title" some (fileLines content)) none =
      st.title := hf.1.symm
  have k2 : lastOr (assignsOf "Uploaded By" some (fileLines content)) none =
      st.upload_account := hf.2.1.symm
  have k3 : lastOr (assignsOf "Tags" (fun v => some (parseTags v))
      (fileLines content)) none = st.tags := hf.2.2.1.symm
  have k4 : lastOr (assignsOf "Upload Time" strptime (fileLines content))
      none = st.upload_time := hf.2.2.2.1.symm
  have k5 : lastOr (assignsOf "Downloaded" strptime (fileLines content))
      none = st.download_time := hf.2.2.2.2.symm
  refine ⟨?_, ?_, ?_, ?_, ?_⟩
  · rw [← lastOr_none, k1, h1]
  · rw [← lastOr_none, k2, h3]
  · rw [← lastOr_none, k3, h5]
  · rw [← lastOr_none, k4, h2]
  · rw [← lastOr_none, k5, h4]

theorem record_fields_from_last_occurrence_witness :
    parse_galleryinfo "2"
      "Title: a\nTitle: b\nUpload Time: 2023-01-02 03:04\nUploaded By: u\nDownloaded: 2023-01-02 03:04\nTags: x:y"
      [] 0 =
      .ok (mkGalleryInfoParser "2" "2" 2 [] 0 "b" ⟨2023, 1, 2, 3, 4⟩ "" "u"
        ⟨2023, 1, 2, 3, 4⟩ [("x", "y")]) ∧
    (assignsOf "Title" some (fileLines
      "Title: a\nTitle: b\nUpload Time: 2023-01-02 03:04\nUploaded By: u\nDownloaded: 2023-01-02 03:04\nTags: x:y")).getLast? =
      some "b" := by
  refine ⟨by decide, ?_⟩
  exact (record_fields_from_last_occurrence "2"
    "Title: a\nTitle: b\nUpload Time: 2023-01-02 03:04\nUploaded By: u\nDownloaded: 2023-01-02 03:04\nTags: x:y"
    [] 0
    (mkGalleryInfoParser "2" "2" 2 [] 0 "b" ⟨2023, 1, 2, 3, 4⟩ "" "u"
      ⟨2023, 1, 2, 3, 4⟩ [("x", "y")]) (by decide)).1

/-! ### Claim C8: the round trip -/

theorem scan_step_upload_time_some (v : String) (rest : List String)
    (st : ScanState) (dt : PyDateTime) (hc : st.comments = false)
    (hm : pyContains ("Upload Time: " ++ v) commentsMarker = false)
    (hv : pyStrip v = v) (hsome : strptime v = some dt) :
    scanLines (("Upload Time: " ++ v) :: rest) st =
      scanLines rest { st with upload_time := some dt } := by
  rw [scan_step_upload_time v rest st hc hm hv, hsome]

theorem scan_step_downloaded_some (v : String) (rest : List String)
    (st : ScanState) (dt : PyDateTime) (hc : st.comments = false)
    (hm : pyContains ("Downloaded: " ++ v) commentsMarker = false)
    (hv : pyStrip v = v) (hsome : strptime v = some dt) :
    scanLines (("Downloaded: " ++ v) :: rest) st =
      scanLines rest { st with download_time := some dt } := by
  rw [scan_step_downloaded v rest st hc hm hv, hsome]

/-- C8: a sidecar carrying known well-formed Title, Upload Time,
Uploaded By, Downloaded and Tags header values parses to a record whose
title, upload_time, upload_account, download_time and tags fields are
exactly those values. -/
theorem parse_galleryinfo_roundtrip (folder content : String)
    (listing : List DirEntry) (mtime : Int) (g : Int) (t ua : String)
    (y mo d h mi y2 mo2 d2 h2 mi2 : Nat) (tg : List (String × String))
    (hg : parse_gid folder = .ok g)
    (hL : fileLines content =
      ["Title: " ++ t, "Upload Time: " ++ fmtTS y mo d h mi,
        "Uploaded By: " ++ ua, "Downloaded: " ++ fmtTS y2 mo2 d2 h2 mi2,
        "Tags: " ++ fmtTagsList tg])
    (ht : pyStrip t = t) (hua : pyStrip ua = ua)
    (htg : pyStrip (fmtTagsList tg) = fmtTagsList tg)
    (hma : pyContains ("Title: " ++ t) commentsMarker = false)
    (hmb : pyContains ("Upload Time: " ++ fmtTS y mo d h mi)
      commentsMarker = false)
    (hmc : pyContains ("Uploaded By: " ++ ua) commentsMarker = false)
    (hmd : pyContains ("Downloaded: " ++ fmtTS y2 mo2 d2 h2 mi2)
      commentsMarker = false)
    (hme : pyContains ("Tags: " ++ fmtTagsList tg) commentsMarker = false)
    (hy1 : 1 ≤ y) (hy2 : y ≤ 9999) (hmo1 : 1 ≤ mo) (hmo2 : mo ≤ 12)
    (hd1 : 1 ≤ d) (hd2 : d ≤ daysInMonth y mo) (hh : h ≤ 23) (hmi : mi ≤ 59)
    (hy1b : 1 ≤ y2) (hy2b : y2 ≤ 9999) (hmo1b : 1 ≤ mo2) (hmo2b : mo2 ≤ 12)
    (hd1b : 1 ≤ d2) (hd2b : d2 ≤ daysInMonth y2 mo2) (hhb : h2 ≤ 23)
    (hmib : mi2 ≤ 59) (htgne : tg ≠ []) (htgclean : ∀ p ∈ tg, cleanTag p) :
    parse_galleryinfo folder content listing mtime =
      .ok (mkGalleryInfoParser folder (basename folder) g
        (listing.map (fun e => e.name)) mtime t ⟨y, mo, d, h, mi⟩ "" ua
        ⟨y2, mo2, d2, h2, mi2⟩ tg) := by
  have hscan : scanLines (fileLines content) initScan =
      .ok ⟨false, [], some tg, some t, some ⟨y, mo, d, h, mi⟩, some ua,
        some ⟨y2, mo2, d2, h2, mi2⟩⟩ := by
    rw [hL]
    rw [scan_step_title t _ initScan rfl hma ht]
    rw [scan_step_upload_time_some (fmtTS y mo d h mi) _ _
      ⟨y, mo, d, h, mi⟩ rfl hmb (pyStrip_fmtTS y mo d h mi)
      (strptime_fmtTS y mo d h mi hy1 hy2 hmo1 hmo2 hd1 hd2 hh hmi)]
    rw [scan_step_uploaded_by ua _ _ rfl hmc hua]
    rw [scan_step_downloaded_some (fmtTS y2 mo2 d2 h2 mi2) _ _
      ⟨y2, mo2, d2, h2, mi2⟩ rfl hmd (pyStrip_fmtTS y2 mo2 d2 h2 mi2)
      (strptime_fmtTS y2 mo2 d2 h2 mi2 hy1b hy2b hmo1b hmo2b hd1b hd2b
        hhb hmib)]
    rw [scan_step_tags (fmtTagsList tg) _ _ rfl hme htg]
    rw [parseTags_fmtTagsList tg htgne htgclean]
    rfl
  have hp := parse_galleryinfo_complete folder content listing mtime g
    ⟨false, [], some tg, some t, some ⟨y, mo, d, h, mi⟩, some ua,
      some ⟨y2, mo2, d2, h2, mi2⟩⟩
    t ua ⟨y, mo, d, h, mi⟩ ⟨y2, mo2, d2, h2, mi2⟩ tg hg hscan rfl rfl rfl
    rfl rfl
  exact hp

theorem parse_galleryinfo_roundtrip_witness :
    fileLines
      "Title: T\nUpload Time: 2023-07-15 12:34\nUploaded By: u\nDownloaded: 2024-01-02 03:04\nTags: a:1" =
      ["Title: " ++ "T", "Upload Time: " ++ fmtTS 2023 7 15 12 34,
        "Uploaded By: " ++ "u", "Downloaded: " ++ fmtTS 2024 1 2 3 4,
        "Tags: " ++ fmtTagsList [("a", "1")]] ∧
    parse_galleryinfo "7"
      "Title: T\nUpload Time: 2023-07-15 12:34\nUploaded By: u\nDownloaded: 2024-01-02 03:04\nTags: a:1"
      [] 0 =
      .ok (mkGalleryInfoParser "7" "7" 7 [] 0 "T" ⟨2023, 7, 15, 12, 34⟩ ""
        "u" ⟨2024, 1, 2, 3, 4⟩ [("a", "1")]) := by
  refine ⟨by decide, ?_⟩
  exact parse_galleryinfo_roundtrip "7"
    "Title: T\nUpload Time: 2023-07-15 12:34\nUploaded By: u\nDownloaded: 2024-01-02 03:04\nTags: a:1"
    [] 0 7 "T" "u" 2023 7 15 12 34 2024 1 2 3 4 [("a", "1")]
    (by decide) (by decide) (by decide) (by decide) (by decide) (by decide)
    (by decide) (by decide) (by decide) (by decide) (by decide) (by decide)
    (by decide) (by decide) (by decide) (by decide) (by decide) (by decide)
    (by decide) (by decide) (by decide) (by decide) (by decide) (by decide)
    (by decide) (by decide) (by decide)
    (by
      intro p hp
      simp only [List.mem_singleton] at hp
      subst hp
      exact ⟨by decide, by decide, by decide, by decide, by decide,
        by decide⟩)

end GalleryInfo
